import Mathlib

/-!
# Verification of `daily::future` (continuation-capable promise/future)

Shallow embedding of `include/daily/future/future.hpp` (the executor-aware
header, the largest and most recent version of the source): the shared-state
chain, the three continuation trigger policies (`any`, `set`, `get`), the
promise endpoint (`get_future`, `set_value`, `set_exception`, destructor) and
the future endpoint (`get`, `valid`, `then`).

Modelling conventions:
* The root mutex, condition variables and `reverse_lock` are erased: every
  scenario of the specification's property laws is single-threaded, and under
  the single root lock the C++ control flow is exactly the sequential control
  flow embedded here.  A consumer-side wait that can never be satisfied
  (no other thread can complete the state) is modelled as the `Outcome.blocked`
  poison value.
* A chain is a `List Node`; index 0 is the root (promise-created) state and
  node `i+1` is the state stored in node `i`'s `continuation_` slot.  "At most
  one downstream link" is therefore structural.
* `Node.invocations` and `Node.finishedAt` are ghost instrumentation: the
  number of times the stored callable has run, and the (logical clock) time at
  which `finished_` was first set.  They let the temporal claims (laziness,
  eagerness, publication order) be stated; they alter no behaviour.
* Dereferencing an empty `boost::optional` (undefined behaviour in the source)
  is modelled by the poison error `Exc.undefined`; it is never reached in any
  verified scenario.
* The value-flavoured shared state (`future_shared_state<Result>`) is the one
  embedded; values are the universal type `Val` covering the test scenarios'
  `float` / `int` / `short` / unit results.
-/

namespace DailyFuture4

/-- Universal result value: integers (`int` / `short` results), rationals
(`float` results) and the unit result of `future<void>`. -/
inductive Val where
  | int : Int → Val
  | rat : Rat → Val
  | unit : Val
deriving DecidableEq, Repr

/-- `daily::future_errc` (the stable error-code enumeration). -/
inductive FutureErrc where
  | broken_promise
  | future_already_retrieved
  | promise_already_satisfied
  | no_state
deriving DecidableEq, Repr

/-- Exception payloads: `future_error` with a code, the `std::logic_error`
used by the exception-propagation scenario, an arbitrary user payload, and the
poison value for source-level undefined behaviour (never reached in the
verified scenarios). -/
inductive Exc where
  | futureErr : FutureErrc → Exc
  | logicError : Exc
  | user : Nat → Exc
  | undefined : Exc
deriving DecidableEq, Repr

/-- The three inline continuation trigger policies `continue_on::{any,set,get}`. -/
inductive Policy where
  | any
  | set
  | get
deriving DecidableEq, Repr

/-- Observable outcome of an API call: normal unit return, value return,
thrown exception, a wait that can never be satisfied, or source-level
undefined behaviour. -/
inductive Outcome where
  | ok : Outcome
  | val : Val → Outcome
  | threw : Exc → Outcome
  | blocked : Outcome
  | ub : Outcome
deriving DecidableEq, Repr

/-- One shared state in a chain.

For the root state (`promise_future_shared_state`) `policy = none` and `func`
is an unused placeholder: the root uses the base-class virtual hooks
(`handle_continuation_result_ready` is a no-op, `handle_continuation_result_requested`
waits for `finished_`).  For a continuation link
(`continue_on_{any,set,get}_shared_state`) `policy = some _` and `func` is the
stored callable `continuation_` (fallible: a user callable may throw).

`invocations` and `finishedAt` are ghost instrumentation (see file header). -/
structure Node where
  policy : Option Policy
  func : Val → Except Exc Val
  invocations : Nat
  finished : Bool
  valid : Bool
  result : Option Val
  exc : Option Exc
  finishedAt : Option Nat

/-- `future_shared_state::get`: set the state invalid first, then rethrow a
stored exception if present, else move the stored result out.  Extraction from
an empty slot is undefined behaviour in the source (dereference of an empty
`boost::optional`), modelled by `Exc.undefined`. -/
def Node.get (n : Node) : Node × Except Exc Val :=
  let n1 : Node := { n with valid := false }
  match n1.exc with
  | some e => (n1, Except.error e)
  | none =>
    match n1.result with
    | some v => (n1, Except.ok v)
    | none => (n1, Except.error Exc.undefined)

/-- `future_shared_state_base::continuation_result_ready`, dispatched at the
head of `downs` (the downstream chain of the just-finished node `n`).

* no continuation, a root-flavoured node, or a `get`-policy link: no-op
  (the base-class `handle_continuation_result_ready` is empty and
  `continue_on_get_shared_state` does not override it);
* an `any`- or `set`-policy link: `do_continue` then `check_exception`
  (both override it identically).  `do_continue` is inlined here because the
  recursion into the link's own `set_finished` walks the same list:
  read the parent via `Node.get` (which invalidates it and rethrows a stored
  exception), apply the callable, then `set_finished_with_result` —
  which recursively fires the link's own downstream.  Any exception is caught
  and stored by `set_finished_with_exception` (which does not fire further),
  and `check_exception` then rethrows the link's stored exception upward
  (the `Option Exc` component). -/
def continuation_result_ready (clock : Nat) (n : Node) :
    List Node → Nat × Node × List Node × Option Exc
  | [] => (clock, n, [], none)
  | c :: rest =>
    match c.policy with
    | none => (clock, n, c :: rest, none)
    | some Policy.get => (clock, n, c :: rest, none)
    | some Policy.any | some Policy.set =>
      match (Node.get n).2 with
      | Except.error e =>
        (clock + 1, (Node.get n).1,
          { c with exc := some e, finished := true, finishedAt := some clock } :: rest,
          some e)
      | Except.ok v =>
        let c1 : Node := { c with invocations := c.invocations + 1 }
        match c1.func v with
        | Except.error e =>
          (clock + 1, (Node.get n).1,
            { c1 with exc := some e, finished := true, finishedAt := some clock } :: rest,
            some e)
        | Except.ok res =>
          let c2 : Node :=
            { c1 with result := some res, finished := true, finishedAt := some clock }
          let r := continuation_result_ready (clock + 1) c2 rest
          match r.2.2.2 with
          | none => (r.1, (Node.get n).1, r.2.1 :: r.2.2.1, none)
          | some e2 =>
            (r.1, (Node.get n).1, { r.2.1 with exc := some e2 } :: r.2.2.1, some e2)

/-- `continue_on_basic_shared_state::do_continue` at node `n` with parent
`parent` and downstream chain `downs` (used on the demand path, where the
caller does not re-check the exception): read the parent, apply the callable,
publish own result (firing the own downstream chain via `set_finished`);
catch any exception into the own state. -/
def do_continue (clock : Nat) (parent n : Node) (downs : List Node) :
    Nat × Node × Node × List Node :=
  let pg := Node.get parent
  match pg.2 with
  | Except.error e =>
    (clock + 1, pg.1,
      { n with exc := some e, finished := true, finishedAt := some clock }, downs)
  | Except.ok v =>
    let n1 : Node := { n with invocations := n.invocations + 1 }
    match n1.func v with
    | Except.error e =>
      (clock + 1, pg.1,
        { n1 with exc := some e, finished := true, finishedAt := some clock }, downs)
    | Except.ok res =>
      let n2 : Node :=
        { n1 with result := some res, finished := true, finishedAt := some clock }
      let r := continuation_result_ready (clock + 1) n2 downs
      match r.2.2.2 with
      | none => (r.1, pg.1, r.2.1, r.2.2.1)
      | some e2 => (r.1, pg.1, { r.2.1 with exc := some e2 }, r.2.2.1)

/-- `future_shared_state_base::set_finished` on node `n` whose downstream chain
is `downs`: record `finished_`, (notify waiters,) and fire
`continuation_result_ready` on the attached downstream link if any. -/
def set_finished (clock : Nat) (n : Node) (downs : List Node) :
    Nat × Node × List Node × Option Exc :=
  continuation_result_ready (clock + 1)
    { n with finished := true, finishedAt := some clock } downs

/-- `continuation_result_requested` at a node `n`, zipper-style: `ups` are the
ancestors (nearest parent first, root last) and `downs` the descendants
(nearest child first).  Dispatch on the node's flavour:

* root/base: `while(!finished_) wait;` — if unfinished no other thread can
  finish it, so the request blocks forever (final `Bool` = `true`);
* `any`: run `do_continue` immediately (eagerly satisfy the demand);
* `set`: delegate the request to the parent only (the callable runs only when
  the parent actually completes, via the `ready` path);
* `get`: delegate the request to the parent, then run `do_continue`.

The unreachable empty-`ups` cases (a continuation link always has a parent)
return the blocked poison. -/
def continuation_result_requested (clock : Nat) (ups : List Node) (n : Node)
    (downs : List Node) : Nat × List Node × Node × List Node × Bool :=
  match n.policy with
  | none =>
    if n.finished then (clock, ups, n, downs, false)
    else (clock, ups, n, downs, true)
  | some Policy.any =>
    match ups with
    | [] => (clock, [], n, downs, true)
    | p :: ups1 =>
      let r := do_continue clock p n downs
      (r.1, r.2.1 :: ups1, r.2.2.1, r.2.2.2, false)
  | some Policy.set =>
    match ups with
    | [] => (clock, [], n, downs, true)
    | p :: ups1 =>
      let r := continuation_result_requested clock ups1 p (n :: downs)
      match r.2.2.2.1 with
      | n1 :: downs1 => (r.1, r.2.2.1 :: r.2.1, n1, downs1, r.2.2.2.2)
      | [] => (r.1, r.2.2.1 :: r.2.1, n, [], true)
  | some Policy.get =>
    match ups with
    | [] => (clock, [], n, downs, true)
    | p :: ups1 =>
      let r := continuation_result_requested clock ups1 p (n :: downs)
      match r.2.2.2.1 with
      | n1 :: downs1 =>
        if r.2.2.2.2 then (r.1, r.2.2.1 :: r.2.1, n1, downs1, true)
        else
          let r2 := do_continue r.1 r.2.2.1 n1 downs1
          (r2.1, r2.2.1 :: r.2.1, r2.2.2.1, r2.2.2.2, false)
      | [] => (r.1, r.2.2.1 :: r.2.1, n, [], true)

/-- The whole producer/consumer system: the logical clock (ghost), whether the
promise still owns a state (`state_ != nullptr`), the promise's
`future_obtained_` flag, and the shared-state chain (root first). -/
structure System where
  clock : Nat
  hasState : Bool
  futureObtained : Bool
  nodes : List Node

/-- A freshly constructed root shared state (`future_shared_state_base`
constructor: `finished_ = false`, `is_valid_ = true`; the callable slot is an
unused placeholder for the root). -/
def rootNode : Node :=
  { policy := none, func := fun v => Except.ok v, invocations := 0,
    finished := false, valid := true, result := none, exc := none,
    finishedAt := none }

/-- `promise::promise()`: a fresh promise over a fresh root state. -/
def mkPromise : System :=
  { clock := 0, hasState := true, futureObtained := false, nodes := [rootNode] }

/-- A freshly constructed continuation link carrying policy `pol` and stored
callable `f` (`continue_on_*_shared_state` constructor). -/
def mkLink (pol : Policy) (f : Val → Except Exc Val) : Node :=
  { policy := some pol, func := f, invocations := 0, finished := false,
    valid := true, result := none, exc := none, finishedAt := none }

/-- `promise::get_future`: `no_state` if moved-from, `future_already_retrieved`
on a repeated call, else record `future_obtained_` and hand out the future. -/
def get_future (s : System) : System × Outcome :=
  if s.hasState = false then
    (s, Outcome.threw (Exc.futureErr FutureErrc.no_state))
  else if s.futureObtained then
    (s, Outcome.threw (Exc.futureErr FutureErrc.future_already_retrieved))
  else
    ({ s with futureObtained := true }, Outcome.ok)

/-- `promise::set_value`: `promise_already_satisfied` if the state is already
finished; else `set_finished_with_result` (store the value, `set_finished`,
which fires the downstream chain).  An exception rethrown by a downstream
link's `check_exception` propagates out of `set_value`.  Calling on a
moved-from promise dereferences a null `state_` (undefined behaviour). -/
def set_value (s : System) (v : Val) : System × Outcome :=
  if s.hasState = false then (s, Outcome.ub)
  else
    match s.nodes with
    | [] => (s, Outcome.ub)
    | root :: links =>
      if root.finished then
        (s, Outcome.threw (Exc.futureErr FutureErrc.promise_already_satisfied))
      else
        let r := set_finished s.clock { root with result := some v } links
        ({ s with clock := r.1, nodes := r.2.1 :: r.2.2.1 },
         match r.2.2.2 with
         | some e => Outcome.threw e
         | none => Outcome.ok)

/-- `promise::set_exception` of the executor-aware header:
`promise_already_satisfied` if finished; else
`set_finished_with_exception`, which stores the exception, sets `finished_`
directly and notifies waiters but — deliberately (source comment: the
continuations are not to be run) — does *not* fire the downstream link. -/
def set_exception (s : System) (e : Exc) : System × Outcome :=
  if s.hasState = false then (s, Outcome.ub)
  else
    match s.nodes with
    | [] => (s, Outcome.ub)
    | root :: links =>
      if root.finished then
        (s, Outcome.threw (Exc.futureErr FutureErrc.promise_already_satisfied))
      else
        ({ s with
             clock := s.clock + 1
             nodes := { root with exc := some e, finished := true, finishedAt := some s.clock } :: links },
         Outcome.ok)

/-- `promise::set_exception` of the older (non-executor) header, where
`set_finished_with_exception` stores the exception and then calls
`set_finished` — firing the downstream link. -/
def set_exception_firing (s : System) (e : Exc) : System × Outcome :=
  if s.hasState = false then (s, Outcome.ub)
  else
    match s.nodes with
    | [] => (s, Outcome.ub)
    | root :: links =>
      if root.finished then
        (s, Outcome.threw (Exc.futureErr FutureErrc.promise_already_satisfied))
      else
        let r := set_finished s.clock { root with exc := some e } links
        ({ s with clock := r.1, nodes := r.2.1 :: r.2.2.1 },
         match r.2.2.2 with
         | some e2 => Outcome.threw e2
         | none => Outcome.ok)

/-- `promise::~promise`: if the state is owned, a future was obtained and the
state is not finished, store a `broken_promise` exception completion
(`set_finished_with_exception`, no downstream firing); otherwise do nothing.
The destructor returns only a `System` — by construction no exception escapes
(the source wraps the store in a catch-all). -/
def promise_drop (s : System) : System :=
  if s.hasState then
    match s.nodes with
    | [] => s
    | root :: links =>
      if s.futureObtained && !root.finished then
        { s with
            clock := s.clock + 1
            nodes := { root with exc := some (Exc.futureErr FutureErrc.broken_promise), finished := true, finishedAt := some s.clock } :: links }
      else s
    else s

/-- Helper for `future::then`: walk to the last node of the chain, attach the
new link as its `continuation_` (`set_continuation`), and — exactly as
`set_continuation` does — fire `continuation_result_ready` on the new link at
once if the parent is already finished (an exception rethrown by the link's
`check_exception` propagates out). -/
def attach_last (clock : Nat) : List Node → Node → Nat × List Node × Option Exc
  | [], link => (clock, [link], none)
  | [last], link =>
    if last.finished then
      let r := continuation_result_ready clock last [link]
      (r.1, r.2.1 :: r.2.2.1, r.2.2.2)
    else (clock, [last, link], none)
  | a :: b :: rest, link =>
    let r := attach_last clock (b :: rest) link
    (r.1, a :: r.2.1, r.2.2)

/-- `future::then(trigger, f)` called on the final future of the chain:
construct the continuation link, attach it under the root lock, and return a
future over the link's state (the original future is invalidated by moving its
state out — implicit here, since the chain end moves). -/
def future_then (s : System) (pol : Policy) (f : Val → Except Exc Val) :
    System × Outcome :=
  match s.nodes with
  | [] => (s, Outcome.ub)
  | ns =>
    let r := attach_last s.clock ns (mkLink pol f)
    ({ s with clock := r.1, nodes := r.2.1 },
     match r.2.2 with
     | some e => Outcome.threw e
     | none => Outcome.ok)

/-- `future::get` on the final future of the chain, zipper-style on the
reversed chain (final node first): `do_wait_result` — if not finished, issue
`continuation_result_requested`, then `do_wait` (blocking forever if still
unfinished) — then `future_shared_state::get` (invalidate, rethrow-or-return). -/
def future_get_rev (clock : Nat) : List Node → Nat × List Node × Outcome
  | [] => (clock, [], Outcome.ub)
  | last :: ups =>
    let step :=
      if last.finished then (clock, ups, last, ([] : List Node), false)
      else continuation_result_requested clock ups last []
    match step with
    | (c1, ups1, last1, _, blocked) =>
      if blocked then (c1, last1 :: ups1, Outcome.blocked)
      else if last1.finished = false then (c1, last1 :: ups1, Outcome.blocked)
      else
        let g := Node.get last1
        (c1, g.1 :: ups1,
         match g.2 with
         | Except.error e => Outcome.threw e
         | Except.ok v => Outcome.val v)

/-- `future::get` on the final future of the chain. -/
def future_get (s : System) : System × Outcome :=
  let r := future_get_rev s.clock s.nodes.reverse
  ({ s with clock := r.1, nodes := r.2.1.reverse }, r.2.2)

/-- `future::valid` of the final future of the chain: a state is held and its
`is_valid_` flag is still true. -/
def future_valid (s : System) : Bool :=
  match s.nodes.getLast? with
  | some n => n.valid
  | none => false

/-- Helper: `future_shared_state::get` always returns the invalidated node. -/
theorem Node.get_fst (n : Node) : (Node.get n).1 = { n with valid := false } := by
  unfold Node.get
  rcases n.exc with _ | e
  · rcases n.result with _ | v <;> rfl
  · rfl

/-- Claim C5: `promise::get_future` throws a `no_state` `future_error` when the
promise has been moved from, throws `future_already_retrieved` on any call
after the first successful one, and otherwise succeeds while recording that
the future has been taken; exactly one `get_future` per promise succeeds. -/
theorem get_future_exactly_once (s : System) :
    (get_future s).2 =
      (if s.hasState = false then Outcome.threw (Exc.futureErr FutureErrc.no_state)
       else if s.futureObtained then
         Outcome.threw (Exc.futureErr FutureErrc.future_already_retrieved)
       else Outcome.ok)
    ∧ (get_future s).1.futureObtained = (s.futureObtained || s.hasState)
    ∧ (get_future s).1.nodes = s.nodes
    ∧ (get_future s).1.hasState = s.hasState
    ∧ (get_future (get_future s).1).2 =
        (if s.hasState = false then Outcome.threw (Exc.futureErr FutureErrc.no_state)
         else Outcome.threw (Exc.futureErr FutureErrc.future_already_retrieved)) := by
  cases hs : s.hasState <;> cases ho : s.futureObtained <;>
    simp [get_future, hs, ho]

/-- Claim C9 counterexample: in the executor-aware header,
`set_exception` on a state with an attached `Set`-policy continuation does
*not* activate the downstream link: after `set_exception` the link has not
run (zero invocations) and is not finished — the exception is not routed
through the continuation chain the way a value completion would be. -/
theorem set_exception_suppression_cex :
    ((set_exception ((future_then (get_future mkPromise).1 Policy.set
        (fun v => Except.ok v)).1) (Exc.user 7)).1).nodes.map Node.finished = [true, false]
    ∧ ((set_exception ((future_then (get_future mkPromise).1 Policy.set
        (fun v => Except.ok v)).1) (Exc.user 7)).1).nodes.map Node.invocations = [0, 0]
    ∧ ((set_value ((future_then (get_future mkPromise).1 Policy.set
        (fun v => Except.ok v)).1) (Val.int 1)).1).nodes.map Node.finished = [true, true] := by
  exact ⟨rfl, rfl, rfl⟩

/-- Claim C9 (amended): in the executor-aware header `set_exception` stores the
exception and marks the state finished *without* activating an attached
downstream continuation; the continuation observes the exception only when a
consumer later demands the result — an `Any`- or `Get`-policy link then
re-stores and rethrows it, while a `Set`-policy link is never activated at all
(a subsequent `get` waits forever).  (The older header routes `set_exception`
through `set_finished`, which does activate the downstream link.) -/
theorem set_exception_no_downstream_activation (e : Exc)
    (f : Val → Except Exc Val) (pol : Policy) :
    (set_exception ((future_then (get_future mkPromise).1 pol f).1) e).2 = Outcome.ok
    ∧ ((set_exception ((future_then (get_future mkPromise).1 pol f).1) e).1).nodes.map
        Node.finished = [true, false]
    ∧ ((set_exception ((future_then (get_future mkPromise).1 pol f).1) e).1).nodes.map
        Node.invocations = [0, 0]
    ∧ (future_get ((set_exception ((future_then (get_future mkPromise).1 pol f).1) e).1)).2 =
        (match pol with
         | Policy.set => Outcome.blocked
         | _ => Outcome.threw e) := by
  cases pol <;>
    simp [set_exception, future_then, get_future, mkPromise, rootNode, mkLink,
      attach_last, future_get, future_get_rev, continuation_result_requested,
      do_continue, Node.get, continuation_result_ready]

/-- Helper: firing the `result_ready` hook on a finished node's downstream
chain never changes that node's own `finished_` flag (only its `is_valid_`,
via the child's extraction). -/
theorem continuation_result_ready_parent_finished (clock : Nat) (n : Node)
    (downs : List Node) :
    ((continuation_result_ready clock n downs).2.1).finished = n.finished := by
  rcases downs with _ | ⟨c, rest⟩
  · rfl
  · rcases hp : c.policy with _ | pol
    · simp [continuation_result_ready, hp]
    · cases pol <;>
        simp only [continuation_result_ready, hp] <;>
        (repeat' split) <;> simp [Node.get_fst]

/-- Claim C10: a failed completion is atomic.  When `set_value` or
`set_exception` is called on an already-finished shared state, the
`promise_already_satisfied` error is thrown before any mutation — the whole
system (finished flag, stored result or exception, attached continuations) is
returned unchanged — and a subsequent `get` on the consumer still delivers the
originally stored outcome. -/
theorem failed_completion_atomic (s : System) (v : Val) (e : Exc)
    (hs : s.hasState = true)
    (hfin : s.nodes.head?.map Node.finished = some true) :
    set_value s v =
        (s, Outcome.threw (Exc.futureErr FutureErrc.promise_already_satisfied))
    ∧ set_exception s e =
        (s, Outcome.threw (Exc.futureErr FutureErrc.promise_already_satisfied))
    ∧ future_get (set_value s v).1 = future_get s
    ∧ future_get (set_exception s e).1 = future_get s := by
  rcases hn : s.nodes with _ | ⟨root, links⟩
  · simp [hn] at hfin
  · have hf : root.finished = true := by simpa [hn] using hfin
    refine ⟨?_, ?_, ?_, ?_⟩ <;> simp [set_value, set_exception, hs, hn, hf]

/-- Witness for C10 at a concrete input: a promise completed with `1`. -/
theorem failed_completion_atomic_witness :
    ((set_value mkPromise (Val.int 1)).1.hasState = true
      ∧ (set_value mkPromise (Val.int 1)).1.nodes.head?.map Node.finished = some true)
    ∧ (set_value ((set_value mkPromise (Val.int 1)).1) (Val.int 2) =
        ((set_value mkPromise (Val.int 1)).1,
         Outcome.threw (Exc.futureErr FutureErrc.promise_already_satisfied))
      ∧ set_exception ((set_value mkPromise (Val.int 1)).1) (Exc.user 3) =
        ((set_value mkPromise (Val.int 1)).1,
         Outcome.threw (Exc.futureErr FutureErrc.promise_already_satisfied))
      ∧ future_get (set_value ((set_value mkPromise (Val.int 1)).1) (Val.int 2)).1 =
          future_get ((set_value mkPromise (Val.int 1)).1)
      ∧ future_get (set_exception ((set_value mkPromise (Val.int 1)).1) (Exc.user 3)).1 =
          future_get ((set_value mkPromise (Val.int 1)).1)) :=
  ⟨⟨rfl, rfl⟩, failed_completion_atomic (set_value mkPromise (Val.int 1)).1
      (Val.int 2) (Exc.user 3) rfl rfl⟩

/-- Claim C4: at most one completion call succeeds on a promise.  Starting
from any unfinished state, after a (first) `set_value` or `set_exception`,
every further `set_value` or `set_exception` throws a `future_error` with
code `promise_already_satisfied`. -/
theorem at_most_one_completion (s : System) (v v' : Val) (e e' : Exc)
    (hs : s.hasState = true)
    (hroot : s.nodes.head?.map Node.finished = some false) :
    (set_value ((set_value s v).1) v').2 =
        Outcome.threw (Exc.futureErr FutureErrc.promise_already_satisfied)
    ∧ (set_exception ((set_value s v).1) e).2 =
        Outcome.threw (Exc.futureErr FutureErrc.promise_already_satisfied)
    ∧ (set_value ((set_exception s e).1) v').2 =
        Outcome.threw (Exc.futureErr FutureErrc.promise_already_satisfied)
    ∧ (set_exception ((set_exception s e).1) e').2 =
        Outcome.threw (Exc.futureErr FutureErrc.promise_already_satisfied) := by
  rcases hn : s.nodes with _ | ⟨root, links⟩
  · simp [hn] at hroot
  · have hf : root.finished = false := by simpa [hn] using hroot
    refine ⟨?_, ?_, ?_, ?_⟩ <;>
      simp [set_value, set_exception, set_finished, hs, hn, hf,
        continuation_result_ready_parent_finished]

/-- Witness for C4 at a concrete input: a fresh promise, value then exception. -/
theorem at_most_one_completion_witness :
    (mkPromise.hasState = true
      ∧ mkPromise.nodes.head?.map Node.finished = some false)
    ∧ ((set_value ((set_value mkPromise (Val.int 1)).1) (Val.int 2)).2 =
        Outcome.threw (Exc.futureErr FutureErrc.promise_already_satisfied)
      ∧ (set_exception ((set_value mkPromise (Val.int 1)).1) (Exc.user 3)).2 =
        Outcome.threw (Exc.futureErr FutureErrc.promise_already_satisfied)
      ∧ (set_value ((set_exception mkPromise (Exc.user 3)).1) (Val.int 2)).2 =
        Outcome.threw (Exc.futureErr FutureErrc.promise_already_satisfied)
      ∧ (set_exception ((set_exception mkPromise (Exc.user 3)).1) (Exc.user 4)).2 =
        Outcome.threw (Exc.futureErr FutureErrc.promise_already_satisfied)) :=
  ⟨⟨rfl, rfl⟩, at_most_one_completion mkPromise (Val.int 1) (Val.int 2)
      (Exc.user 3) (Exc.user 4) rfl rfl⟩

/-- Claim C6: if a promise whose future was taken is destroyed before
completion, its destructor stores a `broken_promise` exception completion, so
the consumer's subsequent `get` throws `broken_promise`; the destructor (a
total function into `System` — no exception can escape it) stores nothing when
no future was taken or when the state is already finished. -/
theorem broken_promise_on_drop (c : Nat) (root : Node)
    (hfin : root.finished = false) :
    (promise_drop ⟨c, true, true, [root]⟩).nodes.map Node.exc =
        [some (Exc.futureErr FutureErrc.broken_promise)]
    ∧ (future_get (promise_drop ⟨c, true, true, [root]⟩)).2 =
        Outcome.threw (Exc.futureErr FutureErrc.broken_promise)
    ∧ (∀ t : System, t.futureObtained = false → promise_drop t = t)
    ∧ (∀ (t : System) (root2 : Node) (links : List Node),
        t.nodes = root2 :: links → root2.finished = true → promise_drop t = t) := by
  refine ⟨?_, ?_, ?_, ?_⟩
  · simp [promise_drop, hfin]
  · simp [promise_drop, hfin, future_get, future_get_rev, Node.get]
  · intro t h
    unfold promise_drop
    cases h2 : t.hasState
    · simp
    · rcases t.nodes with _ | ⟨r2, ls⟩ <;> simp [h]
  · intro t root2 links hn h2
    unfold promise_drop
    cases h3 : t.hasState
    · simp
    · simp [hn, h2]

/-- Witness for C6 at a concrete input: a fresh promise with its future taken. -/
theorem broken_promise_on_drop_witness :
    rootNode.finished = false
    ∧ ((promise_drop ⟨0, true, true, [rootNode]⟩).nodes.map Node.exc =
        [some (Exc.futureErr FutureErrc.broken_promise)]
      ∧ (future_get (promise_drop ⟨0, true, true, [rootNode]⟩)).2 =
        Outcome.threw (Exc.futureErr FutureErrc.broken_promise)
      ∧ (∀ t : System, t.futureObtained = false → promise_drop t = t)
      ∧ (∀ (t : System) (root2 : Node) (links : List Node),
          t.nodes = root2 :: links → root2.finished = true → promise_drop t = t)) :=
  ⟨rfl, broken_promise_on_drop 0 rootNode rfl⟩

/-- Claim C7: `future::get` marks the shared state invalid first and only then
rethrows a stored exception or moves the stored result out; `valid()` is true
from `get_future` on, is preserved by the producer-side operations, becomes
false when `get` returns or throws, and never reverts to true (every operation
either preserves the flag or lowers it). -/
theorem validity_lifecycle (n : Node) (s : System) (c : Nat) (fo : Bool)
    (root : Node) (v : Val) (e : Exc) :
    ((Node.get n).1).valid = false
    ∧ ((Node.get n).2 =
        (match n.exc with
         | some ex => Except.error ex
         | none =>
           match n.result with
           | some w => Except.ok w
           | none => Except.error Exc.undefined))
    ∧ future_valid (get_future mkPromise).1 = true
    ∧ future_valid ((set_value ⟨c, true, fo, [root]⟩ v).1) = root.valid
    ∧ future_valid ((set_exception ⟨c, true, fo, [root]⟩ e).1) = root.valid
    ∧ future_valid (promise_drop ⟨c, true, fo, [root]⟩) = root.valid
    ∧ (future_valid ((future_get s).1) = false
        ∨ (future_get s).2 = Outcome.blocked) := by
  refine ⟨by simp [Node.get_fst], ?_, rfl, ?_, ?_, ?_, ?_⟩
  · unfold Node.get
    rcases n.exc with _ | ex
    · rcases n.result with _ | w <;> rfl
    · rfl
  · cases hf : root.finished <;>
      simp [set_value, set_finished, continuation_result_ready, future_valid, hf]
  · cases hf : root.finished <;> simp [set_exception, future_valid, hf]
  · cases hf : root.finished <;> cases hfo : fo <;>
      simp [promise_drop, future_valid, hf, hfo]
  · rcases hr : s.nodes.reverse with _ | ⟨last, ups⟩
    · left
      have hn : s.nodes = [] := by
        simpa using congrArg List.reverse hr
      simp [future_get, future_get_rev, hr, future_valid]
    · by_cases hlf : last.finished
      · left
        simp only [future_get, future_get_rev, hr, hlf, if_true]
        simp [future_valid, Node.get_fst, List.getLast?_reverse]
      · rcases hreq : continuation_result_requested s.clock ups last [] with
          ⟨c1, ups1, last1, d1, blk⟩
        cases blk
        · by_cases h1 : last1.finished
          · left
            simp only [future_get, future_get_rev, hr, hlf, if_false]
            simp [hreq, h1, future_valid, Node.get_fst, List.getLast?_reverse]
          · right
            simp only [future_get, future_get_rev, hr, hlf, if_false]
            simp [hreq, h1]
        · right
          simp only [future_get, future_get_rev, hr, hlf, if_false]
          simp [hreq]

/-- A fresh promise whose future has been taken and continued once with
policy `pol` and callable `f`: `P.get_future().then(pol, f)`. -/
def then_chain (pol : Policy) (f : Val → Except Exc Val) : System :=
  (future_then (get_future mkPromise).1 pol f).1

/-- The C++ callable `[](float f) { return (int)f * 2; }` (cast truncates
toward zero); ill-typed applications are the poison error. -/
def float_to_int_doubler : Val → Except Exc Val
  | Val.rat q => Except.ok (Val.int (q.num / (q.den : Int) * 2))
  | _ => Except.error Exc.undefined

/-- The C++ callable `[](int i) { return (short)(i * 2); }`. -/
def int_doubler : Val → Except Exc Val
  | Val.int i => Except.ok (Val.int (i * 2))
  | _ => Except.error Exc.undefined

/-- Claim C1: a `Get`-policy continuation is lazy.  The `result_ready` hook is
a no-op on a `Get` link wherever it sits, so the stored callable does not run
during the producer's `set_value` — nor when the link is attached to an
already-finished parent — and it runs (exactly once) only when a consumer
calls `get` on the continuation's future, which then returns the callable
applied to the parent's stored value. -/
theorem get_trigger_laziness (v w : Val) (f : Val → Except Exc Val)
    (hf : f v = Except.ok w) :
    (∀ (clock : Nat) (p l : Node) (rest : List Node), l.policy = some Policy.get →
        continuation_result_ready clock p (l :: rest) = (clock, p, l :: rest, none))
    ∧ ((set_value (then_chain Policy.get f) v).1).nodes.map Node.invocations = [0, 0]
    ∧ ((set_value (then_chain Policy.get f) v).1).nodes.map Node.finished = [true, false]
    ∧ (future_get ((set_value (then_chain Policy.get f) v).1)).2 = Outcome.val w
    ∧ ((future_get ((set_value (then_chain Policy.get f) v).1)).1).nodes.map
        Node.invocations = [0, 1]
    ∧ ((future_then ((set_value (get_future mkPromise).1 v).1) Policy.get f).1).nodes.map
        Node.invocations = [0, 0]
    ∧ (future_get ((future_then ((set_value (get_future mkPromise).1 v).1)
        Policy.get f).1)).2 = Outcome.val w := by
  refine ⟨?_, ?_, ?_, ?_, ?_, ?_, ?_⟩
  · intro clock p l rest hl
    simp [continuation_result_ready, hl]
  all_goals
    simp [then_chain, future_then, get_future, mkPromise, rootNode, mkLink,
      attach_last, set_value, set_finished, continuation_result_ready,
      future_get, future_get_rev, continuation_result_requested, do_continue,
      Node.get, hf, List.reverse_cons]

/-- Witness for C1: the spec's get-chain scenario with `v = 1.0` and the
doubling cast callable, whose demand-driven `get` yields `2`. -/
theorem get_trigger_laziness_witness :
    float_to_int_doubler (Val.rat 1) = Except.ok (Val.int 2)
    ∧ ((∀ (clock : Nat) (p l : Node) (rest : List Node), l.policy = some Policy.get →
          continuation_result_ready clock p (l :: rest) = (clock, p, l :: rest, none))
      ∧ ((set_value (then_chain Policy.get float_to_int_doubler) (Val.rat 1)).1).nodes.map
          Node.invocations = [0, 0]
      ∧ ((set_value (then_chain Policy.get float_to_int_doubler) (Val.rat 1)).1).nodes.map
          Node.finished = [true, false]
      ∧ (future_get ((set_value (then_chain Policy.get float_to_int_doubler)
          (Val.rat 1)).1)).2 = Outcome.val (Val.int 2)
      ∧ ((future_get ((set_value (then_chain Policy.get float_to_int_doubler)
          (Val.rat 1)).1)).1).nodes.map Node.invocations = [0, 1]
      ∧ ((future_then ((set_value (get_future mkPromise).1 (Val.rat 1)).1)
          Policy.get float_to_int_doubler).1).nodes.map Node.invocations = [0, 0]
      ∧ (future_get ((future_then ((set_value (get_future mkPromise).1 (Val.rat 1)).1)
          Policy.get float_to_int_doubler).1)).2 = Outcome.val (Val.int 2)) :=
  ⟨by rfl, get_trigger_laziness (Val.rat 1) (Val.int 2) float_to_int_doubler (by rfl)⟩

/-- Claim C2: a `Set`-policy continuation is eager.  Its callable runs exactly
during the producer's `set_value` that finishes the parent (one invocation,
result published at that moment, even though no consumer has demanded it); a
later `get` on the continuation's future returns the value computed then,
without running the callable again. -/
theorem set_trigger_eagerness (v w : Val) (f : Val → Except Exc Val)
    (hf : f v = Except.ok w) :
    (then_chain Policy.set f).nodes.map Node.invocations = [0, 0]
    ∧ (set_value (then_chain Policy.set f) v).2 = Outcome.ok
    ∧ ((set_value (then_chain Policy.set f) v).1).nodes.map Node.invocations = [0, 1]
    ∧ ((set_value (then_chain Policy.set f) v).1).nodes.map Node.result = [some v, some w]
    ∧ ((set_value (then_chain Policy.set f) v).1).nodes.map Node.finished = [true, true]
    ∧ (future_get ((set_value (then_chain Policy.set f) v).1)).2 = Outcome.val w
    ∧ ((future_get ((set_value (then_chain Policy.set f) v).1)).1).nodes.map
        Node.invocations = [0, 1] := by
  refine ⟨?_, ?_, ?_, ?_, ?_, ?_, ?_⟩ <;>
    simp [then_chain, future_then, get_future, mkPromise, rootNode, mkLink,
      attach_last, set_value, set_finished, continuation_result_ready,
      future_get, future_get_rev, continuation_result_requested, do_continue,
      Node.get, hf, List.reverse_cons]

/-- Witness for C2: the spec's set-chain scenario with `v = 1.0`; the callable
runs inside `set_value` and `get` then returns `2`. -/
theorem set_trigger_eagerness_witness :
    float_to_int_doubler (Val.rat 1) = Except.ok (Val.int 2)
    ∧ ((then_chain Policy.set float_to_int_doubler).nodes.map Node.invocations = [0, 0]
      ∧ (set_value (then_chain Policy.set float_to_int_doubler) (Val.rat 1)).2 = Outcome.ok
      ∧ ((set_value (then_chain Policy.set float_to_int_doubler) (Val.rat 1)).1).nodes.map
          Node.invocations = [0, 1]
      ∧ ((set_value (then_chain Policy.set float_to_int_doubler) (Val.rat 1)).1).nodes.map
          Node.result = [some (Val.rat 1), some (Val.int 2)]
      ∧ ((set_value (then_chain Policy.set float_to_int_doubler) (Val.rat 1)).1).nodes.map
          Node.finished = [true, true]
      ∧ (future_get ((set_value (then_chain Policy.set float_to_int_doubler)
          (Val.rat 1)).1)).2 = Outcome.val (Val.int 2)
      ∧ ((future_get ((set_value (then_chain Policy.set float_to_int_doubler)
          (Val.rat 1)).1)).1).nodes.map Node.invocations = [0, 1]) :=
  ⟨by rfl, set_trigger_eagerness (Val.rat 1) (Val.int 2) float_to_int_doubler (by rfl)⟩

/-- Two successive `Any`-policy continuations on a fresh promise's future:
`P.get_future().then(any, f).then(any, g)`. -/
def any_chain (f g : Val → Except Exc Val) : System :=
  (future_then (then_chain Policy.any f) Policy.any g).1

/-- Claim C3: for a chain of two `Any` continuations, after `set_value v` the
final `get` returns `g (f v)`, and the publication order is root before first
link before second link (strictly increasing completion timestamps). -/
theorem any_chain_composition (v w1 w2 : Val) (f g : Val → Except Exc Val)
    (hf : f v = Except.ok w1) (hg : g w1 = Except.ok w2) :
    ((set_value (any_chain f g) v).1).nodes.map Node.result = [some v, some w1, some w2]
    ∧ (∃ t0 t1 t2 : Nat, t0 < t1 ∧ t1 < t2 ∧
        ((set_value (any_chain f g) v).1).nodes.map Node.finishedAt =
          [some t0, some t1, some t2])
    ∧ (future_get ((set_value (any_chain f g) v).1)).2 = Outcome.val w2 := by
  refine ⟨?_, ⟨0, 1, 2, by norm_num, by norm_num, ?_⟩, ?_⟩ <;>
    simp [any_chain, then_chain, future_then, get_future, mkPromise, rootNode,
      mkLink, attach_last, set_value, set_finished, continuation_result_ready,
      future_get, future_get_rev, continuation_result_requested, do_continue,
      Node.get, hf, hg, List.reverse_cons]

/-- Witness for C3: the spec's scenario 3 — `v = 1.0`, `f` the float→int
doubler, `g` the int→short doubler; the final `get` returns `4`. -/
theorem any_chain_composition_witness :
    (float_to_int_doubler (Val.rat 1) = Except.ok (Val.int 2)
      ∧ int_doubler (Val.int 2) = Except.ok (Val.int 4))
    ∧ (((set_value (any_chain float_to_int_doubler int_doubler) (Val.rat 1)).1).nodes.map
          Node.result = [some (Val.rat 1), some (Val.int 2), some (Val.int 4)]
      ∧ (∃ t0 t1 t2 : Nat, t0 < t1 ∧ t1 < t2 ∧
          ((set_value (any_chain float_to_int_doubler int_doubler) (Val.rat 1)).1).nodes.map
            Node.finishedAt = [some t0, some t1, some t2])
      ∧ (future_get ((set_value (any_chain float_to_int_doubler int_doubler)
          (Val.rat 1)).1)).2 = Outcome.val (Val.int 4)) :=
  ⟨⟨by rfl, by rfl⟩, any_chain_composition (Val.rat 1) (Val.int 2) (Val.int 4)
      float_to_int_doubler int_doubler (by rfl) (by rfl)⟩

/-- Claim C8: an exception thrown by a continuation's callable is captured
into that link's state and preserved unchanged along the chain — each child's
extraction of its parent rethrows it and the child re-stores the same payload
(without invoking its own callable) — so the final consumer's `get` rethrows
the original exception.  Concretely (spec scenario 7), a `Get` continuation
that throws `LogicError` makes the final `get` throw `LogicError` after the
producer set `1.0`. -/
theorem exception_propagation_chain (v : Val) (e : Exc) (g : Val → Except Exc Val) :
    (future_get ((set_value ((future_then (then_chain Policy.get
        (fun _ => Except.error e)) Policy.get g).1) v).1)).2 = Outcome.threw e
    ∧ ((future_get ((set_value ((future_then (then_chain Policy.get
        (fun _ => Except.error e)) Policy.get g).1) v).1)).1).nodes.map Node.exc =
        [none, some e, some e]
    ∧ ((future_get ((set_value ((future_then (then_chain Policy.get
        (fun _ => Except.error e)) Policy.get g).1) v).1)).1).nodes.map Node.invocations =
        [0, 1, 0]
    ∧ (future_get ((set_value (then_chain Policy.get
        (fun _ => Except.error Exc.logicError)) (Val.rat 1)).1)).2 =
        Outcome.threw Exc.logicError := by
  refine ⟨?_, ?_, ?_, by decide⟩ <;>
    simp [then_chain, future_then, get_future, mkPromise, rootNode, mkLink,
      attach_last, set_value, set_finished, continuation_result_ready,
      future_get, future_get_rev, continuation_result_requested, do_continue,
      Node.get, List.reverse_cons]

end DailyFuture4
